import Mathlib

/-!
# Verification of the bulk download subsystem (`down_mjai_app.py`)

Shallow embedding of `MJDataDownloader` and `main` from `src/down_mjai_app.py`.
Network and filesystem effects are made explicit: each HTTP attempt's outcome is
supplied by an environment function (`Nat → HeadOutcome` for the prober,
`Nat → AttemptEnv` for the fetch worker), the filesystem is a finite map from
path strings to byte contents, and the unbounded `while` loops of
`find_max_games` take an explicit fuel argument (the Python loops terminate only
when the probed predicate eventually fails; fuel models the number of loop
iterations available).

Python machine-level details kept faithful:
* Python ints are unbounded; all loop variables in the translated loops stay
  nonnegative (`low` starts at 1 and only grows, `mid ≥ low ≥ 1`), so `Nat`
  with truncated subtraction coincides with Python arithmetic on every
  reachable state.
* `time.sleep` durations are recorded as rational values (0.5 is `1/2`).
-/

/-- Byte strings (HTTP bodies, file contents), as lists of byte values. -/
abbrev Bytes := List Nat

/-! ## String helpers modelling the Python string primitives used by the code -/

/-- Python `s.endswith(suf)`. -/
def strEndsWith (s suf : String) : Bool :=
  List.isSuffixOf suf.data s.data

/-- Python `sub in s` (substring containment). -/
def strContains (s sub : String) : Bool :=
  (List.range (s.data.length + 1)).any (fun i => List.isPrefixOf sub.data (s.data.drop i))

/-- Python `int(str)` on the strings arising in this program: a nonempty string
of decimal digits (leading zeros allowed) parses to its value, anything else
raises `ValueError` (modelled as `none`).  `int()`'s extra tolerance for
whitespace, signs and `_` separators is never exercised by the directory and
file names this program manipulates. -/
def parseDigits (l : List Char) : Option Nat :=
  if l ≠ [] ∧ l.all (fun c => c.isDigit) then
    some (l.foldl (fun acc c => acc * 10 + (c.toNat - 48)) 0)
  else
    none

/-! ## Existence prober: `MJDataDownloader.check_url_exists` (lines 23-36)

Each call `self.session.head(url, timeout=10)` either returns a response with a
status code or raises a `requests.RequestException`; attempt `i` of the retry
loop observes `env i`. -/

/-- Outcome of one `session.head` attempt. -/
inductive HeadOutcome where
  | status (code : Nat)
  | exc (msg : String)
deriving DecidableEq

/-- The body of `check_url_exists`' `for i in range(self.retry_times)` loop.
`k` is the number of iterations remaining, so `i + k = retry` at every call;
`k = 0` is the loop running off the end (line 36: `return False`).
A 200 returns `True` at once, a 404 returns `False` at once; any other status
code falls through to the next iteration; a `RequestException` returns `False`
if this was the last attempt and otherwise sleeps 1s and retries. -/
def check_url_go (env : Nat → HeadOutcome) (retry i k : Nat) : Bool :=
  match k with
  | 0 => false
  | k + 1 =>
    match env i with
    | .status c =>
      if c = 200 then true
      else if c = 404 then false
      else check_url_go env retry (i + 1) k
    | .exc _ =>
      if i = retry - 1 then false
      else check_url_go env retry (i + 1) k

/-- `MJDataDownloader.check_url_exists`, with the per-attempt outcomes supplied
by `env`. -/
def check_url_exists (env : Nat → HeadOutcome) (retry : Nat) : Bool :=
  check_url_go env retry 0 retry

/-- An attempt outcome is definitive when it is a 200 or 404 response. -/
def isDefinitive : HeadOutcome → Bool
  | .status c => c == 200 || c == 404
  | .exc _ => false

/-- The Prober contract as the specification states it (spec section 4.1): the
result is decided by the first definitive (200/404) attempt within the retry
budget — 200 yields `Exists` (true), 404 yields `NotFound` (false) — and if no
attempt is definitive the result is `NotFound` (false). -/
def check_url_exists_spec (env : Nat → HeadOutcome) (retry : Nat) : Bool :=
  match (List.range retry).find? (fun i => isDefinitive (env i)) with
  | some i => decide (env i = .status 200)
  | none => false

/-! ## Fetch worker: `MJDataDownloader.download_file` (lines 38-61)

Per attempt, `session.get` + `response.raise_for_status()` either yields the
response body (success status) or raises a `requests.RequestException` — a
transport error or an HTTP error status; both are caught by the same
`except requests.RequestException` clause, so they are modelled as a single
`.err` outcome carrying `str(e)`.  The four filesystem operations
(`os.makedirs`, the `open/write`, the gzip compression, `os.remove`) can each
raise an `OSError`, which the `except` clause does NOT catch. -/

/-- Outcome of `session.get(url, timeout=30)` followed by `raise_for_status()`. -/
inductive ReqResult where
  | err (msg : String)
  | success (body : Bytes)
deriving DecidableEq

/-- The effect environment of one loop iteration of `download_file`: the
request outcome and, for each filesystem operation, `none` for success or
`some msg` for an `OSError` with text `msg`. -/
structure AttemptEnv where
  req : ReqResult
  makedirs_err : Option String
  write_err : Option String
  compress_err : Option String
  remove_err : Option String
deriving DecidableEq

/-- A filesystem: paths to file contents. -/
abbrev FS := String → Option Bytes

def fsWrite (path : String) (data : Bytes) (fs : FS) : FS :=
  fun q => if q = path then some data else fs q

def fsRemove (path : String) (fs : FS) : FS :=
  fun q => if q = path then none else fs q

/-- Result of running `download_file`: `outcome` is `.ok (success, message)`
for a normal return of the Python function and `.error msg` for an uncaught
exception propagating out of it; `fs` is the filesystem afterwards; `sleeps`
records the `time.sleep` calls made; `attempts` counts the GET attempts. -/
structure DlResult where
  outcome : Except String (Bool × String)
  fs : FS
  sleeps : List ℚ
  attempts : Nat

/-- Body of `download_file`'s `for i in range(self.retry_times)` loop; `k` is
the number of iterations remaining (`i + k = retry` at every call, `k = 0` is
the fall-through `return False, f"下载失败: {url}"` of line 61).

On a successful request the code creates the directory, writes the body to
`save_path`, compresses it to `save_path + ".gz"` (line 51 rebuilds exactly
this path from `dirname`/`basename`), and deletes `save_path`.  An `OSError`
from any of those four operations is not caught and escapes as `.error`
(partially-written contents of a failed write are not modelled; no claim
observes the filesystem of a failed task).  A `RequestException` on the last
attempt returns the failure pair with `str(e)` in the message; earlier
attempts sleep 2 seconds and retry. -/
def download_file_go (env : Nat → AttemptEnv) (url save_path : String)
    (enc : Bytes → Bytes) (retry i k : Nat) (fs : FS)
    (sleeps : List ℚ) (att : Nat) : DlResult :=
  match k with
  | 0 => ⟨.ok (false, "下载失败: " ++ url), fs, sleeps, att⟩
  | k + 1 =>
    match (env i).req with
    | .err e =>
      if i = retry - 1 then
        ⟨.ok (false, "下载失败 " ++ url ++ ": " ++ e), fs, sleeps, att + 1⟩
      else
        download_file_go env url save_path enc retry (i + 1) k fs
          (sleeps ++ [(2 : ℚ)]) (att + 1)
    | .success body =>
      match (env i).makedirs_err with
      | some e => ⟨.error e, fs, sleeps, att + 1⟩
      | none =>
        match (env i).write_err with
        | some e => ⟨.error e, fs, sleeps, att + 1⟩
        | none =>
          let fs1 := fsWrite save_path body fs
          match (env i).compress_err with
          | some e => ⟨.error e, fs1, sleeps, att + 1⟩
          | none =>
            let fs2 := fsWrite (save_path ++ ".gz") (enc body) fs1
            match (env i).remove_err with
            | some e => ⟨.error e, fs2, sleeps, att + 1⟩
            | none =>
              ⟨.ok (true, "下载成功: " ++ (save_path ++ ".gz")),
                fsRemove save_path fs2, sleeps, att + 1⟩

/-- `MJDataDownloader.download_file url save_path`, run against environment
`env` on filesystem `fs`; `enc` is the external gzip collaborator (spec
section 1: a pure stream transform producing a gzip stream of exactly the
input bytes). -/
def download_file (env : Nat → AttemptEnv) (url save_path : String)
    (enc : Bytes → Bytes) (retry : Nat) (fs : FS) : DlResult :=
  download_file_go env url save_path enc retry 0 retry fs [] 0

/-- All filesystem operations of an attempt environment succeed. -/
def fsOk (a : AttemptEnv) : Prop :=
  a.makedirs_err = none ∧ a.write_err = none ∧ a.compress_err = none ∧
    a.remove_err = none

/-! ## Range finder: `find_max_rounds` (lines 63-66), `find_max_games`
(lines 68-96) -/

/-- `MJDataDownloader.find_max_rounds`: a constant stub, returns 250. -/
def find_max_rounds (game_id : Nat) : Nat := 250

/-- The expansion loop of `find_max_games` (lines 72-82): while key `high`
exists, set `low := high` and `high += 100`.  `p k` is the probe
`check_url_exists(f"{base_url}/{k}/1_0_mjai.json")` abstracted as an existence
predicate on keys; `fuel` bounds the iterations of the unbounded `while True`. -/
def find_max_games_expand (p : Nat → Bool) (low high fuel : Nat) : Nat × Nat :=
  match fuel with
  | 0 => (low, high)
  | fuel + 1 =>
    if p high then find_max_games_expand p high (high + 100) fuel
    else (low, high)

/-- The binary-search loop of `find_max_games` (lines 85-94): probe the
midpoint of `[low, high]`; on success record it in `last` and move `low` up,
otherwise move `high` down; return `last` when the bounds cross.  In every
call reachable from `find_max_games` we have `low ≥ 1`, hence `mid ≥ 1`, so
`Nat` subtraction in `mid - 1` agrees with Python. -/
def find_max_games_bin (p : Nat → Bool) (low high last fuel : Nat) : Nat :=
  match fuel with
  | 0 => last
  | fuel + 1 =>
    if low ≤ high then
      let mid := (low + high) / 2
      if p mid then find_max_games_bin p (mid + 1) high mid fuel
      else find_max_games_bin p low (mid - 1) last fuel
    else last

/-- `MJDataDownloader.find_max_games`: exponential expansion from
`low = high = 1` followed by binary search, with `last_valid` initialised to
the bracket's `low` (line 85). -/
def find_max_games (p : Nat → Bool) (fuel : Nat) : Nat :=
  let lh := find_max_games_expand p 1 1 fuel
  find_max_games_bin p lh.1 lh.2 lh.1 fuel

/-! ## Range orchestrator: `download_range` (lines 133-202), `download_game`
(lines 98-131), and the `main` entry point (lines 272-326) -/

/-- The round ids for which `download_range` builds tasks for one match that
passed the existence gate.  With an explicit round range
(`start_round > 1 or end_round is not None`, line 159) the code iterates
`range(start_round, min(end_round_actual, find_max_rounds(game_id)) + 1)`
(line 168), where `end_round_actual` is the given `end_round` or, if `None`,
`find_max_rounds(game_id)`.  Otherwise `download_game` iterates
`range(1, max_rounds + 1)` with `max_rounds = find_max_rounds(game_id)`
(line 106). -/
def match_round_ids (g start_round : Nat) (end_round : Option Nat) : List Nat :=
  if 1 < start_round ∨ end_round.isSome then
    let end_actual :=
      match end_round with
      | some e => e
      | none => find_max_rounds g
    List.range' start_round (min end_actual (find_max_rounds g) + 1 - start_round)
  else
    List.range' 1 (find_max_rounds g)

/-- Observable events of a sweep: the per-match existence probe of line 153,
the fetch tasks submitted to the pool, and `time.sleep` calls (durations in
seconds). -/
inductive SweepEvent where
  | probe (g : Nat)
  | task (g r : Nat)
  | sleep (d : ℚ)
deriving DecidableEq

def isSleep : SweepEvent → Bool
  | .sleep _ => true
  | _ => false

/-- One iteration of `download_range`'s match loop (lines 148-195): probe the
first round of match `g` (`gate g`); on failure `continue` — skipping the
`time.sleep(0.5)` of line 195, which only the non-`continue` path reaches —
and on success submit the round tasks and then sleep 0.5 s. -/
def match_events (gate : Nat → Bool) (g start_round : Nat)
    (end_round : Option Nat) : List SweepEvent :=
  if gate g then
    SweepEvent.probe g ::
      ((match_round_ids g start_round end_round).map (fun r => SweepEvent.task g r)
        ++ [SweepEvent.sleep (1 / 2)])
  else
    [SweepEvent.probe g]

/-- The event trace of `download_range` over
`range(start_game, end_game + 1)`. -/
def download_range_events (gate : Nat → Bool) (start_game end_game start_round : Nat)
    (end_round : Option Nat) : List SweepEvent :=
  (List.range' start_game (end_game + 1 - start_game)).flatMap
    (fun g => match_events gate g start_round end_round)

/-- The `(match, round)` fetch tasks issued by one sweep of `download_range`:
for each match in the range that passes the existence gate, one task per round
id of `match_round_ids`; gate-failing matches contribute nothing. -/
def sweep_tasks (gate : Nat → Bool) (start_game end_game start_round : Nat)
    (end_round : Option Nat) : List (Nat × Nat) :=
  (List.range' start_game (end_game + 1 - start_game)).flatMap
    (fun g =>
      if gate g then (match_round_ids g start_round end_round).map (fun r => (g, r))
      else [])

/-- The fetch tasks issued by `main` in download mode (lines 311-325).  When
`skip_existing` is set, `main` computes `existing = check_existing_files(...)`
(line 316) and prints its size — but then calls `download_range` without
passing it, so the task set is built from the ranges and gates alone; both
`skip_existing` and `existing` are dead for scheduling purposes. -/
def main_download_tasks (skip_existing : Bool) (existing : List (Nat × Nat))
    (gate : Nat → Bool) (start_game end_game start_round : Nat)
    (end_round : Option Nat) : List (Nat × Nat) :=
  sweep_tasks gate start_game end_game start_round end_round

/-! ## Index builder: `generate_index` (lines 204-244),
`check_existing_files` (lines 246-269) -/

/-- A persisted index record (the JSON object built at lines 230-236). -/
structure GameRecord where
  total_rounds : Nat
  min_round : Nat
  max_round : Nat
  rounds : List Nat
  directory : String
deriving DecidableEq

/-- One entry of `os.listdir(save_dir)`: a subdirectory with its file listing,
or a plain file (skipped by the `os.path.isdir` check). -/
inductive FsEntry where
  | dir (name : String) (files : List String)
  | file (name : String)
deriving DecidableEq

/-- The per-file step of `generate_index`'s inner loop (lines 220-227): keep
files satisfying `file.endswith(".json") and "_0_mjai.json" in file`, then
parse the leading `_`-delimited token (`file.split("_")[0]`) as the round id,
skipping files whose token is not numeric. -/
def extract_round (file : String) : Option Nat :=
  if strEndsWith file ".json" && strContains file "_0_mjai.json" then
    parseDigits (file.data.takeWhile (fun c => c != '_'))
  else
    none

/-- The per-directory step of `generate_index` (lines 210-236): skip
directories whose name does not parse as an integer; collect the round ids of
recognised files; emit a record only when at least one round was found, with
`total_rounds = len(rounds)`, `min(rounds)`, `max(rounds)`,
`sorted(rounds)` (ascending; Python's `sorted` modelled by insertion sort,
which on lists of numbers produces the same sorted permutation), and the raw
directory name. -/
def index_entry (name : String) (files : List String) : Option (Nat × GameRecord) :=
  match parseDigits name.data with
  | none => none
  | some gid =>
    match files.filterMap extract_round with
    | [] => none
    | r :: rs =>
      some (gid,
        { total_rounds := (r :: rs).length,
          min_round := rs.foldl min r,
          max_round := rs.foldl max r,
          rounds := List.insertionSort (· ≤ ·) (r :: rs),
          directory := name })

/-- `MJDataDownloader.generate_index`, as a function of the storage root's
directory listing; returns the catalog that is serialised to `index.json`. -/
def generate_index (entries : List FsEntry) : List (Nat × GameRecord) :=
  entries.filterMap (fun e =>
    match e with
    | .file _ => none
    | .dir name files => index_entry name files)

/-- `MJDataDownloader.check_existing_files`: the match id and file count of
every integer-named subdirectory holding at least one file that passes the
same filename filter as `generate_index`. -/
def check_existing_files (entries : List FsEntry) : List (Nat × Nat) :=
  entries.filterMap (fun e =>
    match e with
    | .file _ => none
    | .dir name files =>
      match parseDigits name.data with
      | none => none
      | some gid =>
        let matching := files.filter
          (fun f => strEndsWith f ".json" && strContains f "_0_mjai.json")
        if matching.isEmpty then none else some (gid, matching.length))

/-! ## Concrete inputs used by the counterexamples and failing-input theorems -/

/-- The storage tree left by the end-to-end scenario of the spec: matches 1-3
with rounds 1-2 each, every round stored by `download_file` as
`{round_id}_0_mjai.json.gz` (the artifact path is `save_path ++ ".gz"` and the
uncompressed `save_path` is deleted, lines 51-55). -/
def e2e_entries : List FsEntry :=
  [.dir "1" ["1_0_mjai.json.gz", "2_0_mjai.json.gz"],
   .dir "2" ["1_0_mjai.json.gz", "2_0_mjai.json.gz"],
   .dir "3" ["1_0_mjai.json.gz", "2_0_mjai.json.gz"]]

/-- A directory tree for the index-record invariants: one match directory
named with a leading zero, files listed out of round order. -/
def c10_entries : List FsEntry :=
  [.dir "007" ["2_0_mjai.json", "1_0_mjai.json"]]

/-- The record `generate_index` builds for `c10_entries`. -/
def c10_record : GameRecord :=
  { total_rounds := 2, min_round := 1, max_round := 2, rounds := [1, 2],
    directory := "007" }

/-! ## The prober matches its specified contract (C5) -/

/-- The retry loop agrees, at every suffix of the iteration space, with a scan
for the first definitive (200/404) attempt. -/
theorem check_url_go_eq_find (env : Nat → HeadOutcome) (retry : Nat) :
    ∀ k i, i + k = retry →
      check_url_go env retry i k =
        (match (List.range' i k).find? (fun j => isDefinitive (env j)) with
         | some j => decide (env j = .status 200)
         | none => false) := by
  intro k
  induction k with
  | zero => intro i h; simp [check_url_go]
  | succ k ih =>
    intro i h
    rw [List.range'_succ]
    cases henv : env i with
    | status c =>
      by_cases h200 : c = 200
      · subst h200
        simp [check_url_go, henv, isDefinitive, List.find?]
      · by_cases h404 : c = 404
        · subst h404
          simp [check_url_go, henv, isDefinitive, List.find?]
        · have hdef : isDefinitive (env i) = false := by
            simp [henv, isDefinitive, h200, h404]
          rw [List.find?_cons_of_neg _ (by simp [hdef])]
          rw [← ih (i + 1) (by omega)]
          simp [check_url_go, henv, h200, h404]
    | exc m =>
      have hdef : isDefinitive (env i) = false := by simp [henv, isDefinitive]
      rw [List.find?_cons_of_neg _ (by simp [hdef])]
      by_cases hlast : i = retry - 1
      · have hk : k = 0 := by omega
        subst hk
        subst hlast
        simp [check_url_go, henv, List.find?]
      · rw [← ih (i + 1) (by omega)]
        simp [check_url_go, henv, hlast]

/-- Claim C5: for every environment and every retry budget,
`check_url_exists` returns true immediately on the first 200 response and
false immediately on the first 404 response, without consulting later
attempts; any other outcome (request exception or other status code) merely
consumes one attempt, and if no attempt is definitive the result is false.
The function is total (it never raises and returns only the two boolean
values), and it coincides exactly with the Prober contract
`check_url_exists_spec` transcribed from the spec. -/
theorem check_url_exists_eq_spec (env : Nat → HeadOutcome) (retry : Nat) :
    check_url_exists env retry = check_url_exists_spec env retry := by
  rw [check_url_exists, check_url_exists_spec,
    check_url_go_eq_find env retry retry 0 (by omega), List.range_eq_range']

/-! ## The index rebuild does not recognise the compressed artifacts (C1) -/

/-- Claim C1 (failing input): on the tree left by the completed end-to-end
sweep — matches 1-3, rounds 1-2 each, stored as `{round}_0_mjai.json.gz` —
`generate_index` produces an EMPTY catalog, because its filename filter
(line 221) requires `file.endswith(".json")` while every artifact a completed
download leaves on disk ends with `".json.gz"`.  The claim (and the spec's
end-to-end scenario) requires the catalog to map matches 1, 2, 3 to rounds
[1, 2]. -/
theorem generate_index_ignores_gz_artifacts : generate_index e2e_entries = [] := by
  decide

/-! ## Skip-existing mode does not skip anything (C3) -/

set_option maxRecDepth 4000 in
/-- Claim C3 (failing input): re-running in skip-existing mode with match 1
already fully downloaded (inventory `[(1, 250)]`, gate passing for match 1,
match range 1..1, default round range) still issues all 250 fetch tasks for
match 1's rounds.  `main` computes the `check_existing_files` inventory when
`--skip-existing` is given but never consults it when scheduling
(`download_range` is called without it, lines 316-325). -/
theorem main_skip_existing_issues_tasks :
    main_download_tasks true [(1, 250)] (fun g => g == 1) 1 1 1 none =
      (List.range' 1 250).map (fun r => (1, r)) := by
  rfl

/-! ## Range finder correctness (C2) -/

/-- Invariant of the expansion loop for the synthetic predicate `k ≤ B`: with
enough fuel it returns a pair whose second component exceeds `B`, and either
it never iterated (returning its arguments unchanged) or it returns a bracket
`(low, low + 100)` with `low ≤ B`; the first component stays positive. -/
theorem find_max_games_expand_inv (B : Nat) :
    ∀ fuel low high, 1 ≤ low → 1 ≤ high → B < high + 100 * fuel →
      1 ≤ (find_max_games_expand (fun k => decide (k ≤ B)) low high fuel).1 ∧
      B < (find_max_games_expand (fun k => decide (k ≤ B)) low high fuel).2 ∧
      (((find_max_games_expand (fun k => decide (k ≤ B)) low high fuel).1 = low ∧
        (find_max_games_expand (fun k => decide (k ≤ B)) low high fuel).2 = high) ∨
       ((find_max_games_expand (fun k => decide (k ≤ B)) low high fuel).1 ≤ B ∧
        (find_max_games_expand (fun k => decide (k ≤ B)) low high fuel).2 =
          (find_max_games_expand (fun k => decide (k ≤ B)) low high fuel).1 + 100)) := by
  intro fuel
  induction fuel with
  | zero =>
    intro low high hlow hhigh hB
    simp only [find_max_games_expand]
    exact ⟨hlow, by omega, Or.inl ⟨by trivial, by trivial⟩⟩
  | succ fuel ih =>
    intro low high hlow hhigh hB
    by_cases hp : high ≤ B
    · have hrec := ih high (high + 100) hhigh (by omega) (by omega)
      simp only [find_max_games_expand, decide_eq_true hp, if_true]
      rcases hrec with ⟨h1, h2, h3 | h3⟩
      · exact ⟨h1, h2, Or.inr ⟨by omega, by omega⟩⟩
      · exact ⟨h1, h2, Or.inr h3⟩
    · simp only [find_max_games_expand, decide_eq_false hp, Bool.false_eq_true,
        if_false]
      exact ⟨hlow, by omega, Or.inl ⟨by trivial, by trivial⟩⟩

/-- Invariant of the binary-search loop for the synthetic predicate `k ≤ B`:
from a state where `last ≤ B ≤ high`, `1 ≤ low ≤ B + 1`, and `last = B`
whenever `low` already passed `B`, the loop returns exactly `B` given enough
fuel. -/
theorem find_max_games_bin_exact (B : Nat) :
    ∀ fuel low high last, 1 ≤ low → last ≤ B → B ≤ high → low ≤ B + 1 →
      (low = B + 1 → last = B) → high + 1 - low < fuel →
      find_max_games_bin (fun k => decide (k ≤ B)) low high last fuel = B := by
  intro fuel
  induction fuel with
  | zero => intro low high last _ _ _ _ _ hfuel; omega
  | succ fuel ih =>
    intro low high last hlow hlast hhigh hlowB himp hfuel
    by_cases hlh : low ≤ high
    · have hmid1 : low ≤ (low + high) / 2 := by omega
      have hmid2 : (low + high) / 2 ≤ high := by omega
      by_cases hm : (low + high) / 2 ≤ B
      · simp only [find_max_games_bin, if_pos hlh, decide_eq_true hm, if_true]
        exact ih ((low + high) / 2 + 1) high ((low + high) / 2) (by omega) hm
          hhigh (by omega) (by omega) (by omega)
      · simp only [find_max_games_bin, if_pos hlh, decide_eq_false hm,
          Bool.false_eq_true, if_false]
        exact ih low ((low + high) / 2 - 1) last hlow hlast (by omega) hlowB
          himp (by omega)
    · simp only [find_max_games_bin, if_neg hlh]
      have : low = B + 1 := by omega
      exact himp this

/-- The degenerate binary search after an empty expansion (bracket `(1, 1)`,
boundary `B = 0`): the midpoint 1 fails, `high` becomes 0, the bounds cross,
and the initial `last_valid = 1` is returned. -/
theorem find_max_games_bin_zero (fuel : Nat) :
    find_max_games_bin (fun k => decide (k ≤ 0)) 1 1 1 (fuel + 2) = 1 := by
  simp [find_max_games_bin]

/-- Claim C2 (amended): for every monotonic existence predicate with true
boundary `B ≤ 10000` (synthetically, `fun k => k ≤ B`) and enough fuel for the
Python loops to run to completion, `find_max_games` returns exactly `B` when
`B ≥ 1`; when even the first key is absent (`B = 0`) it returns 1 — the
initial `last_valid = low` of line 85, the function's built-in default — and
never throws (it is total).  The original claim's demand of `0` for `B = 0`
fails; see the counterexample. -/
theorem find_max_games_boundary (B fuel : Nat) (hB : B ≤ 10000)
    (hfuel : B + 102 ≤ fuel) :
    find_max_games (fun k => decide (k ≤ B)) fuel = if B = 0 then 1 else B := by
  rw [find_max_games]
  have hexp := find_max_games_expand_inv B fuel 1 1 le_rfl le_rfl (by omega)
  rcases hexp with ⟨h1, h2, ⟨hl, hh⟩ | ⟨hl, hh⟩⟩
  · -- the expansion never iterated: key 1 is already absent, so B = 0
    have hB0 : B = 0 := by omega
    subst hB0
    rw [hl, hh]
    have : fuel = (fuel - 2) + 2 := by omega
    rw [this, find_max_games_bin_zero]
    simp
  · -- proper bracket: low ≤ B < high = low + 100, hence B ≥ 1
    have hBpos : B ≠ 0 := by omega
    rw [if_neg hBpos]
    exact find_max_games_bin_exact B fuel _ _ _ h1 hl h2.le (by omega)
      (by omega) (by omega)

/-- Claim C2 (counterexample): with the first key already absent (boundary
`B = 0`), `find_max_games` returns 1, not the 0 the claim requires. -/
theorem find_max_games_zero_boundary_is_one :
    find_max_games (fun k => decide (k ≤ 0)) 102 = 1 := by
  rfl

/-- Witness for `find_max_games_boundary` at `B = 5`, `fuel = 107`. -/
theorem find_max_games_boundary_witness :
    find_max_games (fun k => decide (k ≤ 5)) 107 = 5 := by
  simpa using find_max_games_boundary 5 107 (by omega) (by omega)

/-! ## Fetch worker behaviour (C4, C6, C7) -/

/-- Appending the `".gz"` suffix changes the path. -/
theorem save_path_ne_gz (p : String) : p ≠ p ++ ".gz" := by
  intro h
  have hlen := congrArg String.length h
  rw [String.length_append] at hlen
  have h3 : (".gz" : String).length = 3 := rfl
  omega

/-- Under sustained transport failure, every remaining iteration of the retry
loop consumes one attempt and sleeps 2 seconds, except the last, which returns
the failure pair built from the final error's text. -/
theorem download_file_go_all_err (env : Nat → AttemptEnv) (url save_path : String)
    (enc : Bytes → Bytes) (retry : Nat) (m : Nat → String) :
    ∀ k i fs sleeps att, i + k = retry → 1 ≤ k →
      (∀ j, i ≤ j → j < retry → (env j).req = .err (m j)) →
      download_file_go env url save_path enc retry i k fs sleeps att =
        ⟨.ok (false, "下载失败 " ++ url ++ ": " ++ m (retry - 1)), fs,
          sleeps ++ List.replicate (k - 1) (2 : ℚ), att + k⟩ := by
  intro k
  induction k with
  | zero => intro i fs sleeps att _ hk; omega
  | succ k ih =>
    intro i fs sleeps att hik hk herr
    have hreq : (env i).req = .err (m i) := herr i le_rfl (by omega)
    by_cases hlast : i = retry - 1
    · have hk0 : k = 0 := by omega
      subst hk0
      subst hlast
      simp [download_file_go, hreq]
    · have hk1 : 1 ≤ k := by omega
      have hrec := ih (i + 1) fs (sleeps ++ [(2 : ℚ)]) (att + 1) (by omega) hk1
        (fun j hj hj2 => herr j (by omega) hj2)
      simp only [download_file_go, hreq, if_neg hlast, hrec]
      have hsl : sleeps ++ [(2 : ℚ)] ++ List.replicate (k - 1) (2 : ℚ) =
          sleeps ++ List.replicate (k + 1 - 1) (2 : ℚ) := by
        rw [List.append_assoc]
        congr 1
        have : k = (k - 1) + 1 := by omega
        rw [this]
        simp [List.replicate_succ]
      rw [hsl]
      congr 1
      omega

/-- Claim C6: when every request attempt raises a transport error (`env`'s
request outcome is `.err (m i)` for all attempts), `download_file` makes
exactly `retry` attempts, sleeps a fixed 2 seconds between consecutive
attempts (`retry - 1` sleeps, no backoff growth), leaves the filesystem
untouched, and returns the failure pair whose message carries the triggering
(final) error's description — it does not raise. -/
theorem download_file_transport_retry (env : Nat → AttemptEnv)
    (url save_path : String) (enc : Bytes → Bytes) (retry : Nat) (fs : FS)
    (m : Nat → String) (hr : 1 ≤ retry)
    (h : ∀ j, j < retry → (env j).req = .err (m j)) :
    download_file env url save_path enc retry fs =
      ⟨.ok (false, "下载失败 " ++ url ++ ": " ++ m (retry - 1)), fs,
        List.replicate (retry - 1) (2 : ℚ), retry⟩ := by
  rw [download_file, download_file_go_all_err env url save_path enc retry m retry
    0 fs [] 0 (by omega) hr (fun j _ hj => h j hj)]
  simp

/-- Witness for `download_file_transport_retry`: two attempts, both timing
out, yield the failure message, one 2-second sleep, two attempts, unchanged
filesystem. -/
theorem download_file_transport_retry_witness :
    download_file (fun _ => ⟨.err "timeout", none, none, none, none⟩) "u" "p"
        id 2 (fun _ => none) =
      ⟨.ok (false, "下载失败 " ++ "u" ++ ": " ++ "timeout"), (fun _ => none),
        List.replicate 1 (2 : ℚ), 2⟩ :=
  download_file_transport_retry (fun _ => ⟨.err "timeout", none, none, none, none⟩)
    "u" "p" id 2 (fun _ => none) (fun _ => "timeout") (by omega) (fun _ _ => rfl)

/-- If no iteration's filesystem operations fail, the retry loop always
returns a `(success, message)` pair — it never raises. -/
theorem download_file_go_no_raise (env : Nat → AttemptEnv) (url save_path : String)
    (enc : Bytes → Bytes) (retry : Nat) (hfs : ∀ j, fsOk (env j)) :
    ∀ k i fs sleeps att, ∃ b msg,
      (download_file_go env url save_path enc retry i k fs sleeps att).outcome =
        .ok (b, msg) := by
  intro k
  induction k with
  | zero => intro i fs sleeps att; exact ⟨false, _, rfl⟩
  | succ k ih =>
    intro i fs sleeps att
    obtain ⟨h1, h2, h3, h4⟩ := hfs i
    cases hreq : (env i).req with
    | err e =>
      by_cases hlast : i = retry - 1
      · subst hlast
        exact ⟨false, "下载失败 " ++ url ++ ": " ++ e,
          by simp [download_file_go, hreq]⟩
      · simpa [download_file_go, hreq, hlast] using ih (i + 1) fs
          (sleeps ++ [(2 : ℚ)]) (att + 1)
    | success body =>
      exact ⟨true, "下载成功: " ++ (save_path ++ ".gz"),
        by simp [download_file_go, hreq, h1, h2, h3, h4]⟩

/-- Claim C4 (amended): `download_file` returns every request-level outcome as
a `(success, message)` pair — as long as the filesystem operations of the
attempts succeed, it never raises past the pool boundary. (The original
claim's stronger statement — that even filesystem errors are returned rather
than thrown — is refuted by `download_file_fs_error_raises`.) -/
theorem download_file_no_raise_without_fs_error (env : Nat → AttemptEnv)
    (url save_path : String) (enc : Bytes → Bytes) (retry : Nat) (fs : FS)
    (hfs : ∀ j, fsOk (env j)) :
    ∃ b msg, (download_file env url save_path enc retry fs).outcome =
      Except.ok (b, msg) :=
  download_file_go_no_raise env url save_path enc retry hfs retry 0 fs [] 0

/-- Witness for `download_file_no_raise_without_fs_error`: one failing request
attempt with healthy filesystem operations produces an `.ok` result. -/
theorem download_file_no_raise_without_fs_error_witness :
    ∃ b msg,
      (download_file (fun _ => ⟨.err "boom", none, none, none, none⟩) "u" "p"
          id 1 (fun _ => none)).outcome = Except.ok (b, msg) :=
  download_file_no_raise_without_fs_error
    (fun _ => ⟨.err "boom", none, none, none, none⟩) "u" "p" id 1 (fun _ => none)
    (fun _ => ⟨rfl, rfl, rfl, rfl⟩)

/-- Claim C4 (counterexample): a filesystem error — here `os.makedirs` raising
"Permission denied" after a successful fetch — is NOT returned as a
`(False, message)` pair: it escapes `download_file` as an exception (the
`except` clause at line 57 catches only `requests.RequestException`), so it
propagates past the pool boundary when `future.result()` re-raises it. -/
theorem download_file_fs_error_raises :
    (download_file
        (fun _ => ⟨.success [1, 2, 3], some "Permission denied", none, none, none⟩)
        "u" "d/1_0_mjai.json" id 3 (fun _ => none)).outcome =
      Except.error "Permission denied" := by
  rfl

/-- Whenever the retry loop returns success, the final filesystem has no file
at `save_path` and holds the compressed body of some successful attempt at
`save_path ++ ".gz"`. -/
theorem download_file_go_success_fs (env : Nat → AttemptEnv)
    (url save_path : String) (enc : Bytes → Bytes) (retry : Nat) :
    ∀ k i fs sleeps att m, i + k = retry →
      (download_file_go env url save_path enc retry i k fs sleeps att).outcome =
        .ok (true, m) →
      (download_file_go env url save_path enc retry i k fs sleeps att).fs
          save_path = none ∧
      ∃ j body, j < retry ∧ (env j).req = .success body ∧
        (download_file_go env url save_path enc retry i k fs sleeps att).fs
            (save_path ++ ".gz") = some (enc body) := by
  intro k
  induction k with
  | zero =>
    intro i fs sleeps att m _ hout
    exact absurd hout (by simp [download_file_go])
  | succ k ih =>
    intro i fs sleeps att m hik hout
    cases hreq : (env i).req with
    | err e =>
      by_cases hlast : i = retry - 1
      · subst hlast
        rw [show download_file_go env url save_path enc retry (retry - 1) (k + 1)
            fs sleeps att = ⟨.ok (false, "下载失败 " ++ url ++ ": " ++ e), fs,
            sleeps, att + 1⟩ by simp [download_file_go, hreq]] at hout
        simp at hout
      · rw [show download_file_go env url save_path enc retry i (k + 1) fs sleeps
            att = download_file_go env url save_path enc retry (i + 1) k fs
            (sleeps ++ [(2 : ℚ)]) (att + 1)
            by simp [download_file_go, hreq, hlast]] at hout ⊢
        exact ih (i + 1) fs (sleeps ++ [(2 : ℚ)]) (att + 1) m (by omega) hout
    | success body =>
      cases h1 : (env i).makedirs_err with
      | some e =>
        rw [show download_file_go env url save_path enc retry i (k + 1) fs sleeps
            att = ⟨.error e, fs, sleeps, att + 1⟩
            by simp [download_file_go, hreq, h1]] at hout
        simp at hout
      | none =>
        cases h2 : (env i).write_err with
        | some e =>
          rw [show download_file_go env url save_path enc retry i (k + 1) fs
              sleeps att = ⟨.error e, fs, sleeps, att + 1⟩
              by simp [download_file_go, hreq, h1, h2]] at hout
          simp at hout
        | none =>
          cases h3 : (env i).compress_err with
          | some e =>
            rw [show download_file_go env url save_path enc retry i (k + 1) fs
                sleeps att = ⟨.error e, fsWrite save_path body fs, sleeps,
                att + 1⟩ by simp [download_file_go, hreq, h1, h2, h3]] at hout
            simp at hout
          | none =>
            cases h4 : (env i).remove_err with
            | some e =>
              rw [show download_file_go env url save_path enc retry i (k + 1) fs
                  sleeps att = ⟨.error e, fsWrite (save_path ++ ".gz") (enc body)
                  (fsWrite save_path body fs), sleeps, att + 1⟩
                  by simp [download_file_go, hreq, h1, h2, h3, h4]] at hout
              simp at hout
            | none =>
              rw [show download_file_go env url save_path enc retry i (k + 1) fs
                  sleeps att = ⟨.ok (true, "下载成功: " ++ (save_path ++ ".gz")),
                  fsRemove save_path (fsWrite (save_path ++ ".gz") (enc body)
                  (fsWrite save_path body fs)), sleeps, att + 1⟩
                  by simp [download_file_go, hreq, h1, h2, h3, h4]]
              refine ⟨by simp [fsRemove], i, body, by omega, hreq, ?_⟩
              simp [fsRemove, fsWrite, (save_path_ne_gz save_path).symm]

/-- Claim C7: whenever `download_file` returns success, the uncompressed
temporary file at `save_path` is absent from the final filesystem, the
compressed artifact exists at `save_path ++ ".gz"` (the `.gz` suffix appended
to, not replacing, the original extension) holding the gzip encoding of the
response body of the successful attempt, and decompressing that artifact
yields byte-for-byte the original response body (`dec` being any decoder
satisfying the gzip collaborator's round-trip contract). -/
theorem download_file_success_artifacts (env : Nat → AttemptEnv)
    (url save_path : String) (enc dec : Bytes → Bytes) (retry : Nat) (fs : FS)
    (m : String) (hdec : ∀ b, dec (enc b) = b)
    (hout : (download_file env url save_path enc retry fs).outcome =
      Except.ok (true, m)) :
    (download_file env url save_path enc retry fs).fs save_path = none ∧
    ∃ j body, j < retry ∧ (env j).req = .success body ∧
      (download_file env url save_path enc retry fs).fs (save_path ++ ".gz") =
        some (enc body) ∧
      dec (enc body) = body := by
  obtain ⟨habs, j, body, hj, hreq, hgz⟩ :=
    download_file_go_success_fs env url save_path enc retry retry 0 fs [] 0 m
      (by omega) hout
  exact ⟨habs, j, body, hj, hreq, hgz, hdec body⟩

/-- Witness for `download_file_success_artifacts`: a single successful attempt
with body `[104, 105]`, the identity as the gzip encoder/decoder pair (any
pair satisfying the round-trip contract). -/
theorem download_file_success_artifacts_witness :
    (download_file (fun _ => ⟨.success [104, 105], none, none, none, none⟩)
        "u" "d/1_0_mjai.json" id 1 (fun _ => none)).fs "d/1_0_mjai.json" =
      none ∧
    ∃ j body, j < 1 ∧
      ((fun (_ : Nat) =>
        (⟨.success [104, 105], none, none, none, none⟩ : AttemptEnv)) j).req =
          .success body ∧
      (download_file (fun _ => ⟨.success [104, 105], none, none, none, none⟩)
          "u" "d/1_0_mjai.json" id 1 (fun _ => none)).fs
          ("d/1_0_mjai.json" ++ ".gz") = some (id body) ∧
      id (id body) = body :=
  download_file_success_artifacts
    (fun _ => ⟨.success [104, 105], none, none, none, none⟩) "u"
    "d/1_0_mjai.json" id id 1 (fun _ => none)
    ("下载成功: " ++ ("d/1_0_mjai.json" ++ ".gz")) (fun _ => rfl) rfl

/-! ## Orchestrator task sets (C8) and sleeps (C9) -/

/-- Claim C8 (amended): for a match that passed the existence gate, with an
explicit round range `[start_round, end_round]`, the task set covers exactly
the rounds from `start_round` up to `min end_round (find_max_rounds g)` — the
requested range truncated by the discovered round bound (line 168's
`min(end_round_actual, self.find_max_rounds(game_id))`), not the requested
range itself. -/
theorem match_round_ids_explicit_range (g start_round e r : Nat) :
    r ∈ match_round_ids g start_round (some e) ↔
      start_round ≤ r ∧ r ≤ min e (find_max_rounds g) := by
  rw [match_round_ids, if_pos (Or.inr (by simp))]
  show r ∈ List.range' start_round (min e (find_max_rounds g) + 1 - start_round) ↔ _
  simp only [find_max_rounds]
  rw [List.mem_range'_1]
  omega

set_option maxRecDepth 8000 in
/-- Claim C8 (counterexample): with explicit range 1..300 the claim demands
one task per requested round — 300 tasks, among them round 300.  The code
builds only 250 tasks (the range is truncated by `find_max_rounds = 250`) and
issues no task for round 300. -/
theorem match_round_ids_truncated :
    (match_round_ids 1 1 (some 300)).length = 250 ∧
    List.count 300 (match_round_ids 1 1 (some 300)) = 0 := by
  constructor
  · rfl
  · rfl

/-- Tasks contain no sleep events. -/
theorem filter_isSleep_tasks (g : Nat) (l : List Nat) :
    (l.map (fun r => SweepEvent.task g r)).filter isSleep = [] := by
  induction l with
  | nil => rfl
  | cons r rs ih => simp [isSleep, ih]

/-- Claim C9 (amended): in a sweep the 0.5-second inter-match sleeps occur
exactly once per match that passes the existence gate — in particular, a
match whose gate fails is skipped by the `continue` at line 156 without
reaching the `time.sleep(0.5)` at line 195, so it contributes no sleep. -/
theorem download_range_sleeps (gate : Nat → Bool)
    (start_game end_game start_round : Nat) (end_round : Option Nat) :
    (download_range_events gate start_game end_game start_round
        end_round).filter isSleep =
      List.replicate
        ((List.range' start_game (end_game + 1 - start_game)).filter gate).length
        (SweepEvent.sleep (1 / 2)) := by
  rw [download_range_events]
  generalize List.range' start_game (end_game + 1 - start_game) = gs
  induction gs with
  | nil => rfl
  | cons g gs ih =>
    rw [List.flatMap_cons, List.filter_append, ih]
    by_cases hg : gate g
    · simp only [match_events, hg, if_true, List.filter_cons, List.filter_append,
        filter_isSleep_tasks, List.filter_cons, List.filter_nil, isSleep]
      simp [List.replicate_succ, hg]
    · simp [match_events, hg, isSleep]

/-- Claim C9 (counterexample): a sweep over matches 1..2 where both fail the
existence gate performs the two probes and no sleep at all — the claim
requires a 0.5-second sleep after each match regardless of outcome. -/
theorem download_range_no_sleep_when_gate_fails :
    download_range_events (fun _ => false) 1 2 1 none =
      [SweepEvent.probe 1, SweepEvent.probe 2] := by
  rfl

/-! ## Index record invariants (C10) -/

/-- `foldl min` over a list starting from `r` lands in `r :: rs`
(Python's `min(rounds)` is an element of the list). -/
theorem foldl_min_mem : ∀ (rs : List Nat) (r : Nat), rs.foldl min r ∈ r :: rs := by
  intro rs
  induction rs with
  | nil => intro r; simp
  | cons c cs ih =>
    intro r
    have h := ih (min r c)
    rw [List.foldl_cons]
    rw [List.mem_cons] at h
    rcases h with h | h
    · rcases min_choice r c with hc | hc <;> rw [h, hc] <;> simp
    · simp [List.mem_cons, Or.inr (Or.inr h)]

/-- `foldl min` starting from `r` is at most `r`. -/
theorem foldl_min_le_init : ∀ (rs : List Nat) (r : Nat), rs.foldl min r ≤ r := by
  intro rs
  induction rs with
  | nil => intro r; simp
  | cons c cs ih =>
    intro r
    rw [List.foldl_cons]
    exact le_trans (ih (min r c)) (min_le_left r c)

/-- `foldl min` is a lower bound of `r :: rs`. -/
theorem foldl_min_le : ∀ (rs : List Nat) (r x : Nat), x ∈ r :: rs →
    rs.foldl min r ≤ x := by
  intro rs
  induction rs with
  | nil =>
    intro r x hx
    rw [List.mem_singleton] at hx
    subst hx
    simp
  | cons c cs ih =>
    intro r x hx
    rw [List.foldl_cons]
    rw [List.mem_cons, List.mem_cons] at hx
    rcases hx with hx | hx | hx
    · rw [hx]
      exact le_trans (foldl_min_le_init cs (min r c)) (min_le_left r c)
    · rw [hx]
      exact le_trans (foldl_min_le_init cs (min r c)) (min_le_right r c)
    · exact ih (min r c) x (List.mem_cons_of_mem _ hx)

/-- `foldl max` over a list starting from `r` lands in `r :: rs`
(Python's `max(rounds)` is an element of the list). -/
theorem foldl_max_mem : ∀ (rs : List Nat) (r : Nat), rs.foldl max r ∈ r :: rs := by
  intro rs
  induction rs with
  | nil => intro r; simp
  | cons c cs ih =>
    intro r
    have h := ih (max r c)
    rw [List.foldl_cons]
    rw [List.mem_cons] at h
    rcases h with h | h
    · rcases max_choice r c with hc | hc <;> rw [h, hc] <;> simp
    · simp [List.mem_cons, Or.inr (Or.inr h)]

/-- `foldl max` starting from `r` is at least `r`. -/
theorem foldl_max_ge_init : ∀ (rs : List Nat) (r : Nat), r ≤ rs.foldl max r := by
  intro rs
  induction rs with
  | nil => intro r; simp
  | cons c cs ih =>
    intro r
    rw [List.foldl_cons]
    exact le_trans (le_max_left r c) (ih (max r c))

/-- `foldl max` is an upper bound of `r :: rs`. -/
theorem foldl_max_ge : ∀ (rs : List Nat) (r x : Nat), x ∈ r :: rs →
    x ≤ rs.foldl max r := by
  intro rs
  induction rs with
  | nil =>
    intro r x hx
    rw [List.mem_singleton] at hx
    subst hx
    simp
  | cons c cs ih =>
    intro r x hx
    rw [List.foldl_cons]
    rw [List.mem_cons, List.mem_cons] at hx
    rcases hx with hx | hx | hx
    · rw [hx]
      exact le_trans (le_max_left r c) (foldl_max_ge_init cs (max r c))
    · rw [hx]
      exact le_trans (le_max_right r c) (foldl_max_ge_init cs (max r c))
    · exact ih (max r c) x (List.mem_cons_of_mem _ hx)

/-- Inversion of `index_entry`: a produced record comes from a directory whose
name parses to the key and a nonempty round list, and its fields are built
exactly as at lines 230-236. -/
theorem index_entry_some (name : String) (files : List String) (gid : Nat)
    (g : GameRecord) (h : index_entry name files = some (gid, g)) :
    parseDigits name.data = some gid ∧ g.directory = name ∧
    ∃ r rs, files.filterMap extract_round = r :: rs ∧
      g.total_rounds = (r :: rs).length ∧ g.min_round = rs.foldl min r ∧
      g.max_round = rs.foldl max r ∧
      g.rounds = List.insertionSort (· ≤ ·) (r :: rs) := by
  unfold index_entry at h
  split at h
  · exact absurd h (by simp)
  · next gid0 hp =>
    split at h
    · exact absurd h (by simp)
    · next r rs hext =>
      rw [Option.some.injEq, Prod.mk.injEq] at h
      obtain ⟨h1, h2⟩ := h
      subst h1
      subst h2
      exact ⟨hp, rfl, r, rs, hext, rfl, rfl, rfl, rfl⟩

/-- Claim C10: every record in a catalog produced by `generate_index` has a
nonempty, non-decreasingly sorted `rounds` list; `total_rounds` is its length;
`min_round` is a member of `rounds` and a lower bound of it (its minimum);
`max_round` is a member and an upper bound (its maximum); and the record's
integer key is exactly the integer parse of its `directory` field (whose
spelling may differ from the decimal rendering of the key, e.g. by leading
zeros). -/
theorem generate_index_record_invariants (entries : List FsEntry) (gid : Nat)
    (g : GameRecord) (h : (gid, g) ∈ generate_index entries) :
    g.rounds ≠ [] ∧ List.Sorted (· ≤ ·) g.rounds ∧
    g.total_rounds = g.rounds.length ∧
    g.min_round ∈ g.rounds ∧ (∀ x ∈ g.rounds, g.min_round ≤ x) ∧
    g.max_round ∈ g.rounds ∧ (∀ x ∈ g.rounds, x ≤ g.max_round) ∧
    parseDigits g.directory.data = some gid := by
  rw [generate_index, List.mem_filterMap] at h
  obtain ⟨ent, _, hent⟩ := h
  cases ent with
  | file n => simp at hent
  | dir name files =>
    obtain ⟨hp, hdir, r, rs, hext, htot, hmin, hmax, hrounds⟩ :=
      index_entry_some name files gid g hent
    have perm := List.perm_insertionSort (· ≤ ·) (r :: rs)
    refine ⟨?_, ?_, ?_, ?_, ?_, ?_, ?_, ?_⟩
    · rw [hrounds]
      intro hc
      have hlen := perm.length_eq
      rw [hc] at hlen
      simp at hlen
    · rw [hrounds]
      exact List.sorted_insertionSort (· ≤ ·) (r :: rs)
    · rw [htot, hrounds, perm.length_eq]
    · rw [hmin, hrounds]
      exact perm.mem_iff.mpr (foldl_min_mem rs r)
    · intro x hx
      rw [hrounds] at hx
      rw [hmin]
      exact foldl_min_le rs r x (perm.subset hx)
    · rw [hmax, hrounds]
      exact perm.mem_iff.mpr (foldl_max_mem rs r)
    · intro x hx
      rw [hrounds] at hx
      rw [hmax]
      exact foldl_max_ge rs r x (perm.subset hx)
    · rw [hdir]
      exact hp

/-- Witness for `generate_index_record_invariants`: the record built for the
directory `"007"` holding rounds 2 and 1 (listed out of order). -/
theorem generate_index_record_invariants_witness :
    List.Sorted (· ≤ ·) c10_record.rounds ∧
    c10_record.total_rounds = c10_record.rounds.length ∧
    c10_record.min_round ∈ c10_record.rounds ∧
    c10_record.max_round ∈ c10_record.rounds ∧
    parseDigits c10_record.directory.data = some 7 := by
  obtain ⟨h1, h2, h3, h4, h5, h6, h7, h8⟩ :=
    generate_index_record_invariants c10_entries 7 c10_record (by decide)
  exact ⟨h2, h3, h4, h6, h8⟩
